import Mathlib

/-!
# MindU scheduled notifications

A shallow embedding of `backend/functions/scheduledNotifications.js`:

* `checkScheduledNotifications`, the dispatch cycle fired every minute,
* `sendFCMNotification`, the per-record push delivery,
* `scheduleNotification`, the callable that creates a scheduled notification.

Firestore is an explicit state (`World`).  Instants (`Date`) are integers, the
milliseconds since the epoch.  Whatever the program cannot control is an
explicit argument: the clock, the identifier Firestore generates for a new
document, the answer of the push gateway, and whether each store call made by
the dispatch cycle succeeds (`CycleEnv`, `ItemEnv`).  In `scheduleNotification`
the store answers every call; the one store error kept there is the refusal to
create a document under a key that is taken.

The dispatch cycle starts one asynchronous pipeline per due document and joins
them with `Promise.all`.  A pipeline writes only through its own `doc.ref` and
appends to `user_sessions`, so the embedding composes the pipelines in the order
of the query snapshot.  When every pipeline is resolved the handler returns
after all of them ran to their end.  When a pipeline is rejected `Promise.all`
is rejected at once and the handler returns with the other pipelines in flight:
the world it leaves is then the one in which each pipeline has had only the
calls served that the environment says (`CycleEnv.served`).  What the pipelines
left in flight do after the handler has returned is outside the embedding.
-/

namespace MindU

/-! ## Data model -/

/-- The values the program writes in the field `status`. -/
inductive Status where
  | pending
  | sent
  | failed
  deriving DecidableEq, Repr

/-- The fields of a `scheduled_notifications` document, as `doc.data()` returns
them.  `id` is the data field of that name, which `sendFCMNotification` reads
(`notification.id`); it is not the key of the document and
`scheduleNotification` never writes it. -/
structure Notification where
  userId : String
  title : String
  body : String
  scheduledTime : Int
  status : Status
  type : String
  createdAt : Int
  expiresAt : Int
  sentAt : Option Int
  id : Option String
  deriving DecidableEq, Repr

/-- A document of `scheduled_notifications`: its key (`doc.id`) and its fields
(`doc.data()`). -/
structure Doc where
  id : String
  data : Notification
  deriving DecidableEq, Repr

/-- The embedded object `notificationData` of a `user_sessions` record. -/
structure NotificationData where
  title : String
  body : String
  deriving DecidableEq, Repr

/-- The fields of a `user_sessions` record. -/
structure Session where
  userId : String
  notificationId : String
  sessionTime : Int
  status : String
  createdAt : Int
  notificationData : NotificationData
  deriving DecidableEq, Repr

/-- The one field of a `users` document the program reads. -/
structure UserData where
  fcmToken : Option String
  deriving DecidableEq, Repr

/-- The object `notification` of a push message. -/
structure Visible where
  title : String
  body : String
  deriving DecidableEq, Repr

/-- The object `data` of a push message. `notificationId` is `none` when the
program puts `undefined` there. -/
structure Payload where
  type : String
  notificationId : Option String
  click_action : String
  deriving DecidableEq, Repr

/-- The message handed to `admin.messaging().send`. -/
structure Message where
  token : String
  notification : Visible
  data : Payload
  androidSound : String
  androidPriority : String
  apnsSound : String
  apnsBadge : Nat
  deriving DecidableEq, Repr

/-- The three Firestore collections the program touches and the log of the
messages submitted to the push gateway. -/
structure World where
  scheduled_notifications : List Doc
  user_sessions : List Session
  users : List (String × UserData)
  pushed : List Message
  deriving DecidableEq, Repr

/-- What the environment does while one due document is processed. -/
structure ItemEnv where
  /-- whether `users/<userId>.get()` answers -/
  userGet : Bool
  /-- the answer of `admin.messaging().send`: a receipt or an error -/
  send : Message → Except String String
  /-- whether `doc.ref.update` with status sent succeeds -/
  updateSent : Bool
  /-- the clock read for `sentAt` -/
  sentAt : Int
  /-- whether `user_sessions.add` succeeds -/
  addSession : Bool
  /-- the clock read for the `createdAt` of the session record -/
  sessionCreatedAt : Int
  /-- whether `doc.ref.update` with status failed succeeds -/
  updateFailed : Bool

/-- What the environment does during one dispatch cycle. -/
structure CycleEnv where
  /-- the clock read at the start of the cycle -/
  now : Int
  /-- whether the due-set query answers -/
  queryOk : Bool
  /-- the behaviour met by the pipeline of the document with a given key -/
  item : String → ItemEnv
  /-- how many calls of the pipeline of the document with a given key have been
  served at the moment `Promise.all` is rejected; read only when a pipeline is
  rejected, and in a run of the program large enough for one rejected pipeline
  to have reached its end -/
  served : String → Nat

/-- The value `null`. -/
inductive JsNull where
  | null
  deriving DecidableEq, Repr

/-! ## Store operations -/

/-- Keys of a list of documents. -/
def ids (l : List Doc) : List String := l.map (fun d => d.id)

/-- Keys in a collection are distinct. -/
def WF (w : World) : Prop := (ids w.scheduled_notifications).Nodup

instance (w : World) : Decidable (WF w) := by unfold WF; infer_instance

/-- The effect of `ref.update` on the collection: the document with that key gets
its fields changed by `f`. -/
def updateDoc (key : String) (f : Notification → Notification) (l : List Doc) : List Doc :=
  l.map (fun d => if d.id = key then { d with data := f d.data } else d)

/-- The document `users/<uid>`, when it exists. -/
def getUser (users : List (String × UserData)) (uid : String) : Option UserData :=
  (users.find? (fun p => p.1 = uid)).map (fun p => p.2)

/-- The truthy value of `fcmToken`: a string that is not empty. -/
def truthyToken (u : UserData) : Option String :=
  match u.fcmToken with
  | none => none
  | some t => if t = "" then none else some t

/-! ## sendFCMNotification -/

/-- The message built for a notification and a token. -/
def buildMessage (fcmToken : String) (notification : Notification) : Message :=
  { token := fcmToken
    notification := { title := notification.title, body := notification.body }
    data := { type := "scheduled_notification"
              notificationId := notification.id
              click_action := "FLUTTER_NOTIFICATION_CLICK" }
    androidSound := "default"
    androidPriority := "high"
    apnsSound := "default"
    apnsBadge := 1 }

/-- The function `sendFCMNotification`: the receipt or the error thrown, and the
messages it submitted to the gateway.  Its `catch` logs and throws the error
again. -/
def sendFCMNotification (e : ItemEnv) (users : List (String × UserData))
    (notification : Notification) : Except String String × List Message :=
  if e.userGet = false then (.error "users lookup failed", [])
  else
    match getUser users notification.userId with
    | none => (.error "Usuario no encontrado", [])
    | some userData =>
      match truthyToken userData with
      | none => (.error "Usuario no tiene token FCM", [])
      | some fcmToken =>
        let message := buildMessage fcmToken notification
        (e.send message, [message])

/-! ## checkScheduledNotifications -/

/-- The due-set filter: `status == pending` and `scheduledTime <= now`. -/
def isDue (now : Int) (d : Doc) : Bool :=
  decide (d.data.status = Status.pending) && decide (d.data.scheduledTime ≤ now)

/-- The record added to `user_sessions` for a document. -/
def sessionOf (createdAt : Int) (doc : Doc) : Session :=
  { userId := doc.data.userId
    notificationId := doc.id
    sessionTime := doc.data.scheduledTime
    status := "completed"
    createdAt := createdAt
    notificationData := { title := doc.data.title, body := doc.data.body } }

/-- The `catch` of the per-document pipeline: write status failed.  When that
write fails the pipeline is rejected. -/
def markFailed (ie : ItemEnv) (doc : Doc) (w : World) : Except String Unit × World :=
  if ie.updateFailed = true then
    let l := updateDoc doc.id (fun n => { n with status := Status.failed }) w.scheduled_notifications
    (.ok (), { w with scheduled_notifications := l })
  else (.error "update failed", w)

/-- The pipeline of one due document (the function mapped over
`notificationsSnapshot.docs`), run to its end: send, write status sent and
`sentAt`, add the session record; on any error, `markFailed`. -/
def processDoc (e : CycleEnv) (doc : Doc) (w : World) : Except String Unit × World :=
  let notification := doc.data
  let ie := e.item doc.id
  match sendFCMNotification ie w.users notification with
  | (.error _, msgs) => markFailed ie doc { w with pushed := w.pushed ++ msgs }
  | (.ok _, msgs) =>
    let w1 := { w with pushed := w.pushed ++ msgs }
    if ie.updateSent = true then
      let l := updateDoc doc.id (fun n => { n with status := Status.sent, sentAt := some ie.sentAt })
        w1.scheduled_notifications
      let w2 := { w1 with scheduled_notifications := l }
      if ie.addSession = true then
        (.ok (), { w2 with user_sessions := w2.user_sessions ++ [sessionOf ie.sessionCreatedAt doc] })
      else markFailed ie doc w2
    else markFailed ie doc w1

/-- The most calls one pipeline makes: the user lookup, the send, the write of
status sent, the insert of the session record and the write of status failed. -/
def allCalls : Nat := 5

/-- The `catch` of a pipeline of which `served` more calls are served. -/
def markFailedUpTo (ie : ItemEnv) (doc : Doc) (served : Nat) (w : World) : World :=
  if served = 0 then w else (markFailed ie doc w).2

/-- The world a pipeline has made when only its first `served` calls have been
served: the same steps as `processDoc`, each call taking one of `served`;
`sendFCMNotification` makes the user lookup and, when it gets that far, the call
of the gateway. -/
def processDocUpTo (e : CycleEnv) (doc : Doc) (served : Nat) (w : World) : World :=
  let notification := doc.data
  let ie := e.item doc.id
  let r := sendFCMNotification ie w.users notification
  let calls := 1 + r.2.length
  if served < calls then w
  else
    let w1 := { w with pushed := w.pushed ++ r.2 }
    match r.1 with
    | .error _ => markFailedUpTo ie doc (served - calls) w1
    | .ok _ =>
      if served - calls = 0 then w1
      else if ie.updateSent = true then
        let l := updateDoc doc.id (fun n => { n with status := Status.sent, sentAt := some ie.sentAt })
          w1.scheduled_notifications
        let w2 := { w1 with scheduled_notifications := l }
        if served - calls = 1 then w2
        else if ie.addSession = true then
          { w2 with user_sessions := w2.user_sessions ++ [sessionOf ie.sessionCreatedAt doc] }
        else markFailedUpTo ie doc (served - calls - 2) w2
      else markFailedUpTo ie doc (served - calls - 1) w1

/-- All the pipelines of a cycle, each run to its end: their outcomes and the
world they leave. -/
def runAll (e : CycleEnv) : List Doc → World → List (Except String Unit) × World
  | [], w => ([], w)
  | doc :: rest, w =>
    let r := processDoc e doc w
    let rs := runAll e rest r.2
    (r.1 :: rs.1, rs.2)

/-- The world the pipelines of a cycle have made when the pipeline of each
document has had `served` of its calls served. -/
def runUpTo (e : CycleEnv) (served : String → Nat) : List Doc → World → World
  | [], w => w
  | doc :: rest, w => runUpTo e served rest (processDocUpTo e doc (served doc.id) w)

/-- The outcome of `Promise.all`: rejected as soon as one promise is. -/
def promiseAll : List (Except String Unit) → Except String Unit
  | [] => .ok ()
  | .error err :: _ => .error err
  | .ok _ :: rest => promiseAll rest

/-- The body of the `try` of `checkScheduledNotifications`.  When no pipeline is
rejected `await Promise.all` returns after all of them; when one is rejected it
throws at that moment, with the other pipelines in flight. -/
def cycleBody (e : CycleEnv) (w : World) : Except String Unit × World :=
  if e.queryOk = false then (.error "query failed", w)
  else
    let docs := w.scheduled_notifications.filter (isDue e.now)
    let r := runAll e docs w
    match promiseAll r.1 with
    | .ok _ => (.ok (), r.2)
    | .error err => (.error err, runUpTo e e.served docs w)

/-- The function `checkScheduledNotifications`: what its invoker gets (a value
or the error raised) and the world it leaves when it returns. -/
def checkScheduledNotifications (e : CycleEnv) (w : World) : Except String JsNull × World :=
  match cycleBody e w with
  | (.ok _, w1) => (.ok JsNull.null, w1)
  | (.error _, w1) => (.ok JsNull.null, w1)

/-! ## scheduleNotification -/

/-- The error class `functions.https.HttpsError`: a code and a message. -/
structure HttpsError where
  code : String
  message : String
  deriving DecidableEq, Repr

/-- The object `context.auth`. -/
structure Auth where
  uid : String
  deriving DecidableEq, Repr

/-- The argument `data` of the callable; `scheduledTime` is the instant
`new Date(scheduledTime)` denotes. -/
structure Request where
  title : String
  body : String
  scheduledTime : Int
  type : Option String
  deriving DecidableEq, Repr

/-- The value the callable returns. -/
structure Response where
  success : Bool
  notificationId : String
  message : String
  deriving DecidableEq, Repr

/-- What the environment supplies to one call of `scheduleNotification`. -/
structure CallEnv where
  /-- the clock read for `createdAt` -/
  now : Int
  /-- the key Firestore generates for the added document -/
  newId : String

/-- The duplicate query: same `userId`, same `scheduledTime`, status in
pending, sent. -/
def existingNotification (l : List Doc) (userId : String) (scheduledTime : Int) : List Doc :=
  l.filter (fun d => decide (d.data.userId = userId) && decide (d.data.scheduledTime = scheduledTime)
    && (decide (d.data.status = Status.pending) || decide (d.data.status = Status.sent)))

/-- The document `scheduleNotification` adds. -/
def newNotification (now : Int) (userId : String) (r : Request) : Notification :=
  { userId := userId
    title := r.title
    body := r.body
    scheduledTime := r.scheduledTime
    status := Status.pending
    type := r.type.getD "appointment"
    createdAt := now
    expiresAt := r.scheduledTime + 30 * 60 * 1000
    sentAt := none
    id := none }

/-- The effect of `collection.add`: a document is created under the generated
key; creation is refused when the key is taken. -/
def addDoc (key : String) (n : Notification) (l : List Doc) : Except String (List Doc) :=
  if key ∈ ids l then .error "document already exists" else .ok (l ++ [{ id := key, data := n }])

/-- The body of the `try` of `scheduleNotification`; what it throws is either an
`HttpsError` or another error, of which only the message is kept. -/
def scheduleBody (env : CallEnv) (userId : String) (r : Request) (w : World) :
    Except (HttpsError ⊕ String) Response × World :=
  if (existingNotification w.scheduled_notifications userId r.scheduledTime).isEmpty = false then
    (.error (.inl { code := "already-exists"
                    message := "Ya existe una notificación programada para esta fecha y hora" }), w)
  else
    match addDoc env.newId (newNotification env.now userId r) w.scheduled_notifications with
    | .error m => (.error (.inr m), w)
    | .ok l =>
      (.ok { success := true
             notificationId := env.newId
             message := "Notificación programada exitosamente" },
       { w with scheduled_notifications := l })

/-- The property `message` of a caught error. -/
def errorMessage : HttpsError ⊕ String → String
  | .inl h => h.message
  | .inr m => m

/-- The function `scheduleNotification`: the response or the `HttpsError` the
caller gets, and the world the call leaves. -/
def scheduleNotification (env : CallEnv) (auth : Option Auth) (r : Request) (w : World) :
    Except HttpsError Response × World :=
  match auth with
  | none => (.error { code := "unauthenticated", message := "Usuario no autenticado" }, w)
  | some a =>
    let userId := a.uid
    match scheduleBody env userId r w with
    | (.ok resp, w1) => (.ok resp, w1)
    | (.error err, w1) => (.error { code := "internal", message := errorMessage err }, w1)

/-- The instant `new Date` gives for the ISO-8601 string of a UTC calendar date
(month 1 to 12) and time of day, in milliseconds since the epoch (proleptic
Gregorian calendar). -/
def utcMillis (year month day hour minute second : Int) : Int :=
  let y := if month ≤ 2 then year - 1 else year
  let era := y / 400
  let yoe := y - era * 400
  let mp := (month + 9) % 12
  let doy := (153 * mp + 2) / 5 + day - 1
  let doe := yoe * 365 + yoe / 4 - yoe / 100 + doy
  let days := era * 146097 + doe - 719468
  ((days * 24 + hour) * 60 + minute) * 60 * 1000 + second * 1000

/-- Point lookup by key. -/
def getDoc (l : List Doc) (key : String) : Option Notification :=
  (l.find? (fun d => d.id = key)).map (fun d => d.data)

/-- The due set of a cycle. -/
def dueDocs (e : CycleEnv) (w : World) : List Doc :=
  w.scheduled_notifications.filter (isDue e.now)

/-- The session records among `l` that reference the document with key `key`. -/
def sessionsFor (key : String) (l : List Session) : List Session :=
  l.filter (fun s => s.notificationId = key)

/-! ## What one pipeline does, as a summary -/

/-- The change the `catch` makes to the fields of the document when `served` more
calls are served. -/
def failChange (ie : ItemEnv) (served : Nat) : Notification → Notification :=
  fun n => if served = 0 then n else if ie.updateFailed = true then { n with status := Status.failed } else n

/-- The net change one pipeline has made to the fields of its document when its
first `served` calls have been served. -/
def fieldChange (e : CycleEnv) (users : List (String × UserData)) (doc : Doc) (served : Nat) :
    Notification → Notification :=
  let ie := e.item doc.id
  let r := sendFCMNotification ie users doc.data
  let calls := 1 + r.2.length
  if served < calls then fun n => n
  else
    match r.1 with
    | .error _ => failChange ie (served - calls)
    | .ok _ =>
      if served - calls = 0 then fun n => n
      else if ie.updateSent = true then
        if served - calls = 1 then fun n => { n with status := Status.sent, sentAt := some ie.sentAt }
        else if ie.addSession = true then
          fun n => { n with status := Status.sent, sentAt := some ie.sentAt }
        else fun n => failChange ie (served - calls - 2)
          { n with status := Status.sent, sentAt := some ie.sentAt }
      else failChange ie (served - calls - 1)

/-- The session records one pipeline has appended when its first `served` calls
have been served. -/
def sessionsAdded (e : CycleEnv) (users : List (String × UserData)) (doc : Doc) (served : Nat) :
    List Session :=
  let ie := e.item doc.id
  let r := sendFCMNotification ie users doc.data
  let calls := 1 + r.2.length
  match r.1 with
  | .error _ => []
  | .ok _ =>
    if calls + 2 ≤ served ∧ ie.updateSent = true ∧ ie.addSession = true then
      [sessionOf ie.sessionCreatedAt doc]
    else []

/-- The messages one pipeline has submitted to the gateway when its first `served`
calls have been served. -/
def messagesOf (e : CycleEnv) (users : List (String × UserData)) (doc : Doc) (served : Nat) :
    List Message :=
  let r := sendFCMNotification (e.item doc.id) users doc.data
  if served < 1 + r.2.length then [] else r.2

/-- One pipeline seen from a document of the collection. -/
def stepDoc (e : CycleEnv) (users : List (String × UserData)) (served : String → Nat)
    (x : Doc) (d : Doc) : Doc :=
  if d.id = x.id then { d with data := fieldChange e users x (served x.id) d.data } else d

/-- The pipelines of `docs`, in order, seen from a document of the collection. -/
def applyAll (e : CycleEnv) (users : List (String × UserData)) (served : String → Nat) :
    List Doc → Doc → Doc
  | [], d => d
  | x :: rest, d => applyAll e users served rest (stepDoc e users served x d)

/-- What a cycle makes of a document of the collection. -/
def finalDoc (e : CycleEnv) (users : List (String × UserData)) (served : String → Nat)
    (d : Doc) : Doc :=
  if isDue e.now d = true then { d with data := fieldChange e users d (served d.id) d.data } else d

/-- The calls served to each pipeline when the handler returns: all of them when no
pipeline is rejected, those the environment says otherwise. -/
def servedAt (e : CycleEnv) (w : World) : String → Nat :=
  match promiseAll (runAll e (w.scheduled_notifications.filter (isDue e.now)) w).1 with
  | .ok _ => fun _ => allCalls
  | .error _ => e.served

/-! ## Concrete stores and environments -/

/-- The instant 2024-01-01T15:00:00Z. -/
def t1500 : Int := 1704121200000

/-- The instant 2024-01-01T15:01:00Z. -/
def t1501 : Int := 1704121260000

/-- A pending record of user u1 for 15:00, as `scheduleNotification` writes it. -/
def noteX : Notification :=
  { userId := "u1", title := "Appt", body := "See you at 3pm", scheduledTime := t1500
    status := Status.pending, type := "appointment", createdAt := 0
    expiresAt := 1704123000000, sentAt := none, id := none }

/-- The document X. -/
def docX : Doc := { id := "X", data := noteX }

/-- A second pending document, of user u2, due at the same time. -/
def docY : Doc := { id := "Y", data := { noteX with userId := "u2" } }

/-- A store holding X, in which user u1 does not exist. -/
def worldNoUser : World :=
  { scheduled_notifications := [docX], user_sessions := [], users := [], pushed := [] }

/-- A store holding X, in which user u1 has a push token. -/
def worldToken : World :=
  { scheduled_notifications := [docX], user_sessions := []
    users := [("u1", { fcmToken := some "tok" })], pushed := [] }

/-- A store holding Y and X, in which user u1 has a push token and user u2 does not
exist. -/
def worldTwo : World :=
  { scheduled_notifications := [docY, docX], user_sessions := []
    users := [("u1", { fcmToken := some "tok" })], pushed := [] }

/-- An environment in which every call succeeds. -/
def itemOk : ItemEnv :=
  { userGet := true, send := fun _ => .ok "receipt", updateSent := true, sentAt := t1501
    addSession := true, sessionCreatedAt := t1501, updateFailed := true }

/-- A cycle at 15:01 in which every call succeeds. -/
def envOk : CycleEnv :=
  { now := t1501, queryOk := true, item := fun _ => itemOk, served := fun _ => allCalls }

/-- A cycle at 15:01 in which the write of status failed is refused. -/
def envNoFallback : CycleEnv :=
  { now := t1501, queryOk := true, item := fun _ => { itemOk with updateFailed := false }
    served := fun _ => allCalls }

/-- A cycle at 15:01 in which the write of status sent is refused. -/
def envNoSentWrite : CycleEnv :=
  { now := t1501, queryOk := true, item := fun _ => { itemOk with updateSent := false }
    served := fun _ => allCalls }

/-- A cycle at 15:01 in which the write of status failed is refused for Y only: the
pipeline of Y is rejected after its two calls, and at that moment the pipeline of
X has had two calls served as well, its user lookup and its send. -/
def envYStuck : CycleEnv :=
  { now := t1501, queryOk := true
    item := fun key => if key = "Y" then { itemOk with updateFailed := false } else itemOk
    served := fun key => if key = "Y" then allCalls else 2 }

/-- A cycle at 15:01 whose due-set query fails. -/
def envQueryDown : CycleEnv :=
  { now := t1501, queryOk := false, item := fun _ => itemOk, served := fun _ => allCalls }

/-- The store without the document of a given key. -/
def withoutDoc (key : String) (w : World) : World :=
  { w with scheduled_notifications := w.scheduled_notifications.filter (fun d => d.id ≠ key) }

/-- A store in which X was sent and Y failed, with the session record of X. -/
def worldDone : World :=
  { scheduled_notifications :=
      [{ id := "X", data := { noteX with status := Status.sent, sentAt := some t1501 } },
       { id := "Y", data := { noteX with userId := "u2", status := Status.failed } }]
    user_sessions := [sessionOf t1501 docX]
    users := [("u1", { fcmToken := some "tok" })]
    pushed := [] }

/-- At most one record per pair of `userId` and `scheduledTime` has status pending
or sent; the records of a pair in those statuses are what the duplicate query of
`scheduleNotification` returns. -/
def UniqueActive (l : List Doc) : Prop :=
  ∀ (userId : String) (scheduledTime : Int), (existingNotification l userId scheduledTime).length ≤ 1

/-- The empty store. -/
def worldEmpty : World :=
  { scheduled_notifications := [], user_sessions := [], users := [], pushed := [] }

/-- A store without records, in which user u1 has a push token. -/
def worldUsers : World :=
  { scheduled_notifications := [], user_sessions := []
    users := [("u1", { fcmToken := some "tok" })], pushed := [] }

/-- The caller u1. -/
def authU1 : Auth := { uid := "u1" }

/-- The request of the scenario: an appointment at 2024-01-01T15:00:00Z, no type. -/
def reqAppt : Request :=
  { title := "Appt", body := "See you at 3pm", scheduledTime := t1500, type := none }

/-- A call at instant 0 for which Firestore generates the key X. -/
def callX : CallEnv := { now := 0, newId := "X" }

/-- A later call for which Firestore generates the key Z. -/
def callZ : CallEnv := { now := 1, newId := "Z" }

theorem updateDoc_id (key : String) (l : List Doc) : updateDoc key (fun n => n) l = l := by
  unfold updateDoc
  induction l with
  | nil => rfl
  | cons a t ih =>
    simp only [List.map_cons, ih]
    cases a with
    | mk k n => by_cases h : k = key <;> simp [h]

theorem updateDoc_comp (key : String) (f g : Notification → Notification) (l : List Doc) :
    updateDoc key f (updateDoc key g l) = updateDoc key (fun n => f (g n)) l := by
  unfold updateDoc
  induction l with
  | nil => rfl
  | cons a t ih =>
    simp only [List.map_cons, ih]
    by_cases h : a.id = key <;> simp [h]

theorem updateDoc_eq_map (e : CycleEnv) (users : List (String × UserData)) (served : String → Nat)
    (x : Doc) (l : List Doc) :
    updateDoc x.id (fieldChange e users x (served x.id)) l = l.map (stepDoc e users served x) := by
  unfold updateDoc stepDoc
  rfl

theorem markFailedUpTo_world (ie : ItemEnv) (doc : Doc) (served : Nat) (w : World) :
    markFailedUpTo ie doc served w
      = { w with scheduled_notifications :=
            updateDoc doc.id (failChange ie served) w.scheduled_notifications } := by
  unfold markFailedUpTo markFailed failChange
  by_cases h0 : served = 0
  · simp [h0, updateDoc_id]
  · by_cases hf : ie.updateFailed = true
    · simp [h0, hf]
    · simp [h0, hf, updateDoc_id]

theorem processDocUpTo_world (e : CycleEnv) (served : String → Nat) (doc : Doc) (w : World) :
    processDocUpTo e doc (served doc.id) w =
      { scheduled_notifications := w.scheduled_notifications.map (stepDoc e w.users served doc)
        user_sessions := w.user_sessions ++ sessionsAdded e w.users doc (served doc.id)
        users := w.users
        pushed := w.pushed ++ messagesOf e w.users doc (served doc.id) } := by
  rw [← updateDoc_eq_map]
  simp only [processDocUpTo, fieldChange, sessionsAdded, messagesOf, markFailedUpTo_world]
  rcases hs : sendFCMNotification (e.item doc.id) w.users doc.data with ⟨r, msgs⟩
  cases r with
  | error err =>
    by_cases hlt : served doc.id < 1 + msgs.length
    · simp [hlt, updateDoc_id]
    · simp [hlt]
  | ok receipt =>
    by_cases hlt : served doc.id < 1 + msgs.length
    · have h2 : ¬ (1 + msgs.length + 2 ≤ served doc.id) := by omega
      simp [hlt, h2, updateDoc_id]
    · by_cases h0 : served doc.id - (1 + msgs.length) = 0
      · have h2 : ¬ (1 + msgs.length + 2 ≤ served doc.id) := by omega
        simp [hlt, h0, h2, updateDoc_id]
      · by_cases hu : (e.item doc.id).updateSent = true
        · by_cases h1 : served doc.id - (1 + msgs.length) = 1
          · have h2 : ¬ (1 + msgs.length + 2 ≤ served doc.id) := by omega
            simp [hlt, h0, h1, h2, hu]
          · have h2 : 1 + msgs.length + 2 ≤ served doc.id := by omega
            by_cases ha : (e.item doc.id).addSession = true
            · simp [hlt, h0, h1, h2, hu, ha]
            · simp [hlt, h0, h1, h2, hu, ha, updateDoc_comp]
        · simp [hlt, h0, hu]

theorem send_calls (ie : ItemEnv) (users : List (String × UserData)) (n : Notification) :
    (sendFCMNotification ie users n).2.length ≤ 1
      ∧ ∀ receipt, (sendFCMNotification ie users n).1 = .ok receipt →
          (sendFCMNotification ie users n).2.length = 1 := by
  unfold sendFCMNotification
  by_cases hg : ie.userGet = false
  · simp [hg]
  · simp only [hg, if_false]
    cases hu : getUser users n.userId with
    | none => simp
    | some u =>
      cases ht : truthyToken u with
      | none => simp [ht]
      | some t => simp [ht]

theorem processDoc_whole (e : CycleEnv) (doc : Doc) (w : World) :
    (processDoc e doc w).2 = processDocUpTo e doc allCalls w := by
  have hc := send_calls (e.item doc.id) w.users doc.data
  simp only [processDoc, processDocUpTo, markFailedUpTo, allCalls]
  rcases hs : sendFCMNotification (e.item doc.id) w.users doc.data with ⟨r, msgs⟩
  rw [hs] at hc
  cases r with
  | error err =>
    have h1 : ¬ (5 < 1 + msgs.length) := by have := hc.1; simp only at this; omega
    have h2 : ¬ (5 - (1 + msgs.length) = 0) := by have := hc.1; simp only at this; omega
    simp [h1, h2]
  | ok receipt =>
    have hl : msgs.length = 1 := hc.2 receipt rfl
    by_cases hu : (e.item doc.id).updateSent = true <;>
      by_cases ha : (e.item doc.id).addSession = true <;>
        simp [hl, hu, ha]

theorem runUpTo_world (e : CycleEnv) (served : String → Nat) (docs : List Doc) (w : World) :
    runUpTo e served docs w =
      { scheduled_notifications := w.scheduled_notifications.map (applyAll e w.users served docs)
        user_sessions := w.user_sessions
          ++ docs.flatMap (fun d => sessionsAdded e w.users d (served d.id))
        users := w.users
        pushed := w.pushed ++ docs.flatMap (fun d => messagesOf e w.users d (served d.id)) } := by
  induction docs generalizing w with
  | nil => simp [runUpTo, applyAll]
  | cons x rest ih =>
    simp only [runUpTo, ih, processDocUpTo_world, List.map_map, List.flatMap_cons, List.append_assoc]
    rfl

theorem runAll_whole (e : CycleEnv) (docs : List Doc) (w : World) :
    (runAll e docs w).2 = runUpTo e (fun _ => allCalls) docs w := by
  induction docs generalizing w with
  | nil => rfl
  | cons x rest ih => simp only [runAll, runUpTo, ih, processDoc_whole]

/-- The world a cycle leaves when its query answers. -/
theorem cycle_runs (e : CycleEnv) (w : World) (hq : e.queryOk = true) :
    (checkScheduledNotifications e w).2 = runUpTo e (servedAt e w) (dueDocs e w) w := by
  unfold checkScheduledNotifications cycleBody servedAt dueDocs
  simp only [hq]
  cases hp : promiseAll (runAll e (List.filter (isDue e.now) w.scheduled_notifications) w).1 with
  | error err => simp
  | ok u => simp [runAll_whole]

theorem cycle_world (e : CycleEnv) (w : World) (hq : e.queryOk = true) :
    (checkScheduledNotifications e w).2 =
      { scheduled_notifications :=
          w.scheduled_notifications.map (applyAll e w.users (servedAt e w) (dueDocs e w))
        user_sessions := w.user_sessions
          ++ (dueDocs e w).flatMap (fun d => sessionsAdded e w.users d (servedAt e w d.id))
        users := w.users
        pushed := w.pushed
          ++ (dueDocs e w).flatMap (fun d => messagesOf e w.users d (servedAt e w d.id)) } := by
  rw [cycle_runs e w hq, runUpTo_world]

theorem stepDoc_key (e : CycleEnv) (users : List (String × UserData)) (served : String → Nat)
    (x d : Doc) : (stepDoc e users served x d).id = d.id := by
  unfold stepDoc
  split <;> rfl

theorem applyAll_key (e : CycleEnv) (users : List (String × UserData)) (served : String → Nat)
    (docs : List Doc) (d : Doc) : (applyAll e users served docs d).id = d.id := by
  induction docs generalizing d with
  | nil => rfl
  | cons x rest ih => simp [applyAll, ih, stepDoc_key]

theorem applyAll_other (e : CycleEnv) (users : List (String × UserData)) (served : String → Nat)
    (docs : List Doc) (d : Doc) (h : ∀ x ∈ docs, x.id ≠ d.id) :
    applyAll e users served docs d = d := by
  induction docs generalizing d with
  | nil => rfl
  | cons x rest ih =>
    have hx : ¬ d.id = x.id := fun hc => h x (List.mem_cons_self _ _) hc.symm
    simp only [applyAll, stepDoc, hx, if_false]
    exact ih d (fun y hy => h y (List.mem_cons_of_mem _ hy))

theorem applyAll_mem (e : CycleEnv) (users : List (String × UserData)) (served : String → Nat)
    (docs : List Doc) (d : Doc) (hn : (ids docs).Nodup) (hd : d ∈ docs) :
    applyAll e users served docs d
      = { d with data := fieldChange e users d (served d.id) d.data } := by
  induction docs with
  | nil => cases hd
  | cons x rest ih =>
    simp only [ids, List.map_cons, List.nodup_cons, List.mem_map, not_exists, not_and] at hn
    rcases List.mem_cons.mp hd with hdx | hdr
    · subst hdx
      simp only [applyAll, stepDoc, if_true]
      exact applyAll_other e users served rest _ (fun y hy hc => hn.1 y hy hc)
    · have hx : ¬ d.id = x.id := fun hc => hn.1 d hdr hc
      simp only [applyAll, stepDoc, hx, if_false]
      exact ih hn.2 hdr

theorem dueDocs_nodup (e : CycleEnv) (w : World) (hwf : WF w) : (ids (dueDocs e w)).Nodup :=
  List.Nodup.sublist (List.Sublist.map _ (List.filter_sublist _)) hwf

theorem applyAll_due (e : CycleEnv) (served : String → Nat) (w : World) (hwf : WF w) (d : Doc)
    (hd : d ∈ w.scheduled_notifications) :
    applyAll e w.users served (dueDocs e w) d = finalDoc e w.users served d := by
  unfold finalDoc
  by_cases hdue : isDue e.now d = true
  · rw [if_pos hdue]
    exact applyAll_mem e w.users served _ d (dueDocs_nodup e w hwf) (List.mem_filter.mpr ⟨hd, hdue⟩)
  · rw [if_neg hdue]
    apply applyAll_other
    intro x hx hc
    have hxm := List.mem_filter.mp hx
    have hxd : x = d := List.inj_on_of_nodup_map hwf hxm.1 hd hc
    exact hdue (hxd ▸ hxm.2)

/-- The documents a cycle leaves, when keys are distinct. -/
theorem cycle_docs (e : CycleEnv) (w : World) (hq : e.queryOk = true) (hwf : WF w) :
    (checkScheduledNotifications e w).2.scheduled_notifications =
      w.scheduled_notifications.map (finalDoc e w.users (servedAt e w)) := by
  rw [cycle_world e w hq]
  exact List.map_congr_left (fun d hd => applyAll_due e _ w hwf d hd)

theorem finalDoc_key (e : CycleEnv) (users : List (String × UserData)) (served : String → Nat)
    (d : Doc) : (finalDoc e users served d).id = d.id := by
  unfold finalDoc
  split <;> rfl

theorem getDoc_map (g : Doc → Doc) (hg : ∀ d, (g d).id = d.id) (l : List Doc)
    (hn : (ids l).Nodup) (d : Doc) (hd : d ∈ l) :
    getDoc (l.map g) d.id = some (g d).data := by
  induction l with
  | nil => cases hd
  | cons a t ih =>
    simp only [ids, List.map_cons, List.nodup_cons, List.mem_map, not_exists, not_and] at hn
    rcases List.mem_cons.mp hd with hda | hdt
    · subst hda
      simp [getDoc, hg]
    · have ha : ¬ a.id = d.id := fun hc => hn.1 d hdt hc.symm
      have := ih hn.2 hdt
      simp only [getDoc, List.map_cons, List.find?_cons, hg, ha, decide_False] at this ⊢
      exact this

theorem getDoc_self (l : List Doc) (hn : (ids l).Nodup) (d : Doc) (hd : d ∈ l) :
    getDoc l d.id = some d.data := by
  have h := getDoc_map (fun x => x) (fun _ => rfl) l hn d hd
  rwa [List.map_id'] at h

theorem ids_map (g : Doc → Doc) (hg : ∀ d, (g d).id = d.id) (l : List Doc) :
    ids (l.map g) = ids l := by
  simp [ids, List.map_map, Function.comp_def, hg]

/-- The record a cycle leaves under the key of a document of the collection. -/
theorem cycle_getDoc (e : CycleEnv) (w : World) (hq : e.queryOk = true) (hwf : WF w) (d : Doc)
    (hd : d ∈ w.scheduled_notifications) :
    getDoc (checkScheduledNotifications e w).2.scheduled_notifications d.id
      = some (finalDoc e w.users (servedAt e w) d).data := by
  rw [cycle_docs e w hq hwf]
  exact getDoc_map _ (finalDoc_key e w.users _) _ hwf d hd

/-- A cycle whose query fails returns to its invoker and leaves the world as it was. -/
theorem cycle_query_failed (e : CycleEnv) (w : World) (hq : e.queryOk = false) :
    checkScheduledNotifications e w = (.ok JsNull.null, w) := by
  simp [checkScheduledNotifications, cycleBody, hq]

theorem cycle_keeps_keys (e : CycleEnv) (w : World) (hwf : WF w) :
    WF (checkScheduledNotifications e w).2 := by
  cases hq : e.queryOk with
  | false => rw [cycle_query_failed e w hq]; exact hwf
  | true =>
    unfold WF
    rw [cycle_docs e w hq hwf, ids_map _ (finalDoc_key e w.users _)]
    exact hwf

theorem sessionsAdded_key (e : CycleEnv) (users : List (String × UserData)) (x : Doc) (served : Nat) :
    ∀ s ∈ sessionsAdded e users x served, s.notificationId = x.id := by
  intro s hs
  simp only [sessionsAdded] at hs
  split at hs
  · cases hs
  · split at hs
    · simp only [List.mem_singleton] at hs
      subst hs
      rfl
    · cases hs

theorem sessionsFor_append (key : String) (l₁ l₂ : List Session) :
    sessionsFor key (l₁ ++ l₂) = sessionsFor key l₁ ++ sessionsFor key l₂ := by
  simp [sessionsFor]

theorem sessionsFor_same (e : CycleEnv) (users : List (String × UserData)) (x : Doc) (served : Nat) :
    sessionsFor x.id (sessionsAdded e users x served) = sessionsAdded e users x served := by
  unfold sessionsFor
  rw [List.filter_eq_self]
  intro s hs
  simp [sessionsAdded_key e users x served s hs]

theorem sessionsFor_other (e : CycleEnv) (users : List (String × UserData)) (x : Doc) (served : Nat)
    (key : String) (h : x.id ≠ key) : sessionsFor key (sessionsAdded e users x served) = [] := by
  unfold sessionsFor
  rw [List.filter_eq_nil_iff]
  intro s hs
  simp [sessionsAdded_key e users x served s hs, h]

theorem sessionsFor_absent (e : CycleEnv) (users : List (String × UserData)) (served : String → Nat)
    (docs : List Doc) (key : String) (h : ∀ x ∈ docs, x.id ≠ key) :
    sessionsFor key (docs.flatMap (fun d => sessionsAdded e users d (served d.id))) = [] := by
  induction docs with
  | nil => rfl
  | cons x rest ih =>
    rw [List.flatMap_cons, sessionsFor_append,
      sessionsFor_other e users x _ key (h x (List.mem_cons_self _ _)),
      ih (fun y hy => h y (List.mem_cons_of_mem _ hy))]
    rfl

theorem sessionsFor_present (e : CycleEnv) (users : List (String × UserData)) (served : String → Nat)
    (docs : List Doc) (d : Doc) (hn : (ids docs).Nodup) (hd : d ∈ docs) :
    sessionsFor d.id (docs.flatMap (fun d => sessionsAdded e users d (served d.id)))
      = sessionsAdded e users d (served d.id) := by
  induction docs with
  | nil => cases hd
  | cons x rest ih =>
    simp only [ids, List.map_cons, List.nodup_cons, List.mem_map, not_exists, not_and] at hn
    rw [List.flatMap_cons, sessionsFor_append]
    rcases List.mem_cons.mp hd with hdx | hdr
    · subst hdx
      rw [sessionsFor_same, sessionsFor_absent e users served rest d.id (fun y hy hc => hn.1 y hy hc)]
      simp
    · rw [sessionsFor_other e users x _ d.id (fun hc => hn.1 d hdr hc.symm), ih hn.2 hdr]
      rfl

/-- The session records a cycle leaves for the key of a document of the collection. -/
theorem cycle_sessionsFor (e : CycleEnv) (w : World) (hq : e.queryOk = true) (hwf : WF w) (d : Doc)
    (hd : d ∈ w.scheduled_notifications) :
    sessionsFor d.id (checkScheduledNotifications e w).2.user_sessions
      = sessionsFor d.id w.user_sessions
        ++ (if isDue e.now d = true then sessionsAdded e w.users d (servedAt e w d.id) else []) := by
  rw [cycle_world e w hq]
  simp only [sessionsFor_append]
  congr 1
  by_cases hdue : isDue e.now d = true
  · rw [if_pos hdue]
    exact sessionsFor_present e w.users _ _ d (dueDocs_nodup e w hwf) (List.mem_filter.mpr ⟨hd, hdue⟩)
  · rw [if_neg hdue]
    apply sessionsFor_absent
    intro x hx hc
    have hxm := List.mem_filter.mp hx
    have hxd : x = d := List.inj_on_of_nodup_map hwf hxm.1 hd hc
    exact hdue (hxd ▸ hxm.2)

/-! ## Cycles in which no pipeline is rejected -/

theorem processDoc_resolved (e : CycleEnv) (doc : Doc) (w : World)
    (hf : (e.item doc.id).updateFailed = true) : (processDoc e doc w).1 = .ok () := by
  simp only [processDoc, markFailed, hf, if_true]
  rcases hs : sendFCMNotification (e.item doc.id) w.users doc.data with ⟨r, msgs⟩
  cases r with
  | error err => rfl
  | ok receipt =>
    by_cases hu : (e.item doc.id).updateSent = true <;>
      by_cases ha : (e.item doc.id).addSession = true <;> simp [hu, ha]

theorem runAll_resolved (e : CycleEnv) (docs : List Doc) (w : World)
    (h : ∀ d ∈ docs, (e.item d.id).updateFailed = true) :
    promiseAll (runAll e docs w).1 = .ok () := by
  induction docs generalizing w with
  | nil => rfl
  | cons x rest ih =>
    simp only [runAll, processDoc_resolved e x w (h x (List.mem_cons_self _ _)), promiseAll]
    exact ih _ (fun y hy => h y (List.mem_cons_of_mem _ hy))

theorem servedAt_whole (e : CycleEnv) (w : World)
    (h : ∀ d ∈ w.scheduled_notifications, isDue e.now d = true →
      (e.item d.id).updateFailed = true) :
    servedAt e w = fun _ => allCalls := by
  unfold servedAt
  rw [runAll_resolved e _ w (fun d hd => h d (List.mem_filter.mp hd).1 (List.mem_filter.mp hd).2)]

theorem failChange_status (ie : ItemEnv) (served : Nat) (n : Notification)
    (hf : ie.updateFailed = true) (h0 : served ≠ 0) :
    (failChange ie served n).status = Status.failed := by
  simp [failChange, hf, h0]

theorem failChange_keeps (ie : ItemEnv) (served : Nat) (n : Notification) :
    (failChange ie served n).sentAt = n.sentAt ∧ (failChange ie served n).userId = n.userId
      ∧ (failChange ie served n).scheduledTime = n.scheduledTime := by
  unfold failChange
  split_ifs <;> exact ⟨rfl, rfl, rfl⟩

theorem fieldChange_terminal (e : CycleEnv) (users : List (String × UserData)) (d : Doc)
    (hf : (e.item d.id).updateFailed = true) (n : Notification) :
    (fieldChange e users d allCalls n).status = Status.sent
      ∨ (fieldChange e users d allCalls n).status = Status.failed := by
  have hc := send_calls (e.item d.id) users d.data
  simp only [fieldChange, allCalls]
  rcases hs : sendFCMNotification (e.item d.id) users d.data with ⟨r, msgs⟩
  rw [hs] at hc
  cases r with
  | error err =>
    have h1 : ¬ (5 < 1 + msgs.length) := by have := hc.1; simp only at this; omega
    have h2 : 5 - (1 + msgs.length) ≠ 0 := by have := hc.1; simp only at this; omega
    simp [h1, failChange_status _ _ _ hf h2]
  | ok receipt =>
    have hl : msgs.length = 1 := hc.2 receipt rfl
    by_cases hu : (e.item d.id).updateSent = true <;>
      by_cases ha : (e.item d.id).addSession = true <;>
        simp [hl, hu, ha, failChange_status _ _ _ hf]

theorem fieldChange_sent (e : CycleEnv) (users : List (String × UserData)) (d : Doc)
    (receipt : String) (hs : (sendFCMNotification (e.item d.id) users d.data).1 = .ok receipt)
    (hu : (e.item d.id).updateSent = true) (ha : (e.item d.id).addSession = true)
    (n : Notification) :
    fieldChange e users d allCalls n
        = { n with status := Status.sent, sentAt := some (e.item d.id).sentAt }
      ∧ sessionsAdded e users d allCalls = [sessionOf (e.item d.id).sessionCreatedAt d] := by
  have hl := (send_calls (e.item d.id) users d.data).2 receipt hs
  simp [fieldChange, sessionsAdded, allCalls, hs, hl, hu, ha]

/-! ## Whatever was served -/

theorem fieldChange_undelivered (e : CycleEnv) (users : List (String × UserData)) (d : Doc)
    (err : String) (hs : (sendFCMNotification (e.item d.id) users d.data).1 = .error err)
    (served : Nat) (n : Notification) :
    (fieldChange e users d served n).sentAt = n.sentAt
      ∧ sessionsAdded e users d served = [] := by
  constructor
  · simp only [fieldChange, hs]
    split_ifs
    · rfl
    · exact (failChange_keeps _ _ _).1
  · simp [sessionsAdded, hs]

theorem fieldChange_keeps (e : CycleEnv) (users : List (String × UserData)) (d : Doc)
    (served : Nat) (n : Notification) :
    (fieldChange e users d served n).userId = n.userId
      ∧ (fieldChange e users d served n).scheduledTime = n.scheduledTime := by
  simp only [fieldChange]
  cases hs : (sendFCMNotification (e.item d.id) users d.data).1 with
  | error err =>
    simp only []
    split_ifs
    · exact ⟨rfl, rfl⟩
    · exact (failChange_keeps _ _ _).2
  | ok receipt =>
    simp only []
    split_ifs
    · exact ⟨rfl, rfl⟩
    · exact ⟨rfl, rfl⟩
    · exact ⟨rfl, rfl⟩
    · exact ⟨rfl, rfl⟩
    · exact ⟨(failChange_keeps _ _ _).2.1, (failChange_keeps _ _ _).2.2⟩
    · exact (failChange_keeps _ _ _).2

theorem messagesOf_sublist (e : CycleEnv) (users : List (String × UserData)) (d : Doc)
    (served : Nat) :
    (messagesOf e users d served).Sublist (sendFCMNotification (e.item d.id) users d.data).2 := by
  simp only [messagesOf]
  split
  · exact List.nil_sublist _
  · exact List.Sublist.refl _

theorem flatMap_sublist {α β : Type} (f g : α → List β) (l : List α)
    (h : ∀ x, (f x).Sublist (g x)) : (l.flatMap f).Sublist (l.flatMap g) := by
  induction l with
  | nil => exact List.Sublist.refl _
  | cons x rest ih =>
    rw [List.flatMap_cons, List.flatMap_cons]
    exact List.Sublist.append (h x) ih

/-! ## The claims -/

/-- C1, as stated, fails: X is due, its user does not exist, so the send throws;
the write of status failed is refused, and X is still pending after the cycle. -/
theorem due_record_left_pending :
    docX ∈ worldNoUser.scheduled_notifications ∧ isDue envNoFallback.now docX = true
      ∧ envNoFallback.queryOk = true
      ∧ getDoc (checkScheduledNotifications envNoFallback worldNoUser).2.scheduled_notifications
          docX.id = some docX.data
      ∧ docX.data.status = Status.pending := by
  decide

/-- C1, amended: when the due-set query succeeds, every record due at the start of
the cycle has status sent or failed after it, whatever the outcome of the user
lookup, of the push send, of the write of status sent and of the insert of the
session record, provided the write of status failed succeeds whenever a due record
of the cycle attempts it. -/
theorem due_record_terminal (e : CycleEnv) (w : World) (hq : e.queryOk = true) (hwf : WF w)
    (hall : ∀ x ∈ w.scheduled_notifications, isDue e.now x = true →
      (e.item x.id).updateFailed = true)
    (d : Doc) (hd : d ∈ w.scheduled_notifications) (hdue : isDue e.now d = true) :
    ∃ n, getDoc (checkScheduledNotifications e w).2.scheduled_notifications d.id = some n
      ∧ (n.status = Status.sent ∨ n.status = Status.failed) ∧ n.status ≠ Status.pending := by
  refine ⟨_, cycle_getDoc e w hq hwf d hd, ?_⟩
  have h := fieldChange_terminal e w.users d (hall d hd hdue) d.data
  simp only [finalDoc, hdue, if_true, servedAt_whole e w hall]
  refine ⟨h, ?_⟩
  rcases h with h | h <;> simp [h]

theorem due_record_terminal_witness :
    ∃ n, getDoc (checkScheduledNotifications envOk worldTwo).2.scheduled_notifications docY.id
        = some n
      ∧ (n.status = Status.sent ∨ n.status = Status.failed) ∧ n.status ≠ Status.pending :=
  due_record_terminal envOk worldTwo rfl (by decide) (fun _ _ _ => rfl) docY (by decide)
    (by decide)

/-- C6: `checkScheduledNotifications` never raises, it returns null to its invoker
whatever the store and the gateway do; and when the due-set query fails the cycle
changes no record, appends no session record and submits nothing to the gateway. -/
theorem cycle_never_raises (e : CycleEnv) (w : World) :
    (checkScheduledNotifications e w).1 = .ok JsNull.null
      ∧ (e.queryOk = false → (checkScheduledNotifications e w).2 = w) := by
  constructor
  · unfold checkScheduledNotifications
    split <;> rfl
  · intro hq
    rw [cycle_query_failed e w hq]

theorem cycle_never_raises_witness :
    envQueryDown.queryOk = false
      ∧ (checkScheduledNotifications envQueryDown worldToken).2 = worldToken :=
  ⟨rfl, (cycle_never_raises envQueryDown worldToken).2 rfl⟩

theorem cycle_not_due (e : CycleEnv) (w : World) (hwf : WF w) (d : Doc)
    (hd : d ∈ w.scheduled_notifications) (hdue : isDue e.now d = false) :
    getDoc (checkScheduledNotifications e w).2.scheduled_notifications d.id = some d.data
      ∧ sessionsFor d.id (checkScheduledNotifications e w).2.user_sessions
          = sessionsFor d.id w.user_sessions := by
  cases hq : e.queryOk with
  | false =>
    rw [cycle_query_failed e w hq]
    exact ⟨getDoc_self _ hwf d hd, rfl⟩
  | true =>
    rw [cycle_getDoc e w hq hwf d hd, cycle_sessionsFor e w hq hwf d hd]
    simp [finalDoc, hdue]

theorem cycle_mem_not_due (e : CycleEnv) (w : World) (hwf : WF w) (d : Doc)
    (hd : d ∈ w.scheduled_notifications) (hdue : isDue e.now d = false) :
    d ∈ (checkScheduledNotifications e w).2.scheduled_notifications := by
  cases hq : e.queryOk with
  | false => rw [cycle_query_failed e w hq]; exact hd
  | true =>
    rw [cycle_docs e w hq hwf]
    refine List.mem_map.mpr ⟨d, hd, ?_⟩
    simp [finalDoc, hdue]

theorem cycle_no_pending (e : CycleEnv) (w : World)
    (h : ∀ d ∈ w.scheduled_notifications, d.data.status ≠ Status.pending) :
    checkScheduledNotifications e w = (.ok JsNull.null, w) := by
  cases hq : e.queryOk with
  | false => exact cycle_query_failed e w hq
  | true =>
    have hnone : dueDocs e w = [] := by
      unfold dueDocs
      rw [List.filter_eq_nil_iff]
      intro d hd
      simp [isDue, h d hd]
    have h1 : (checkScheduledNotifications e w).1 = .ok JsNull.null := by
      unfold checkScheduledNotifications
      split <;> rfl
    have h2 : (checkScheduledNotifications e w).2 = w := by
      rw [cycle_runs e w hq, hnone]
      rfl
    exact Prod.ext h1 h2

theorem cycle_pushed (e : CycleEnv) (w : World) :
    ∃ added, (checkScheduledNotifications e w).2.pushed = w.pushed ++ added
      ∧ added.Sublist ((w.scheduled_notifications.filter (isDue e.now)).flatMap
          (fun d => (sendFCMNotification (e.item d.id) w.users d.data).2)) := by
  cases hq : e.queryOk with
  | false =>
    rw [cycle_query_failed e w hq]
    exact ⟨[], by simp, List.nil_sublist _⟩
  | true =>
    rw [cycle_world e w hq]
    exact ⟨_, rfl, flatMap_sublist _ _ _ (fun d => messagesOf_sublist e w.users d _)⟩

/-- C2, as stated, fails: the push send for X succeeds, the write of status sent is
refused, and the cycle leaves no session record for X and no `sentAt`. -/
theorem sent_push_without_audit :
    docX ∈ worldToken.scheduled_notifications ∧ isDue envNoSentWrite.now docX = true
      ∧ (sendFCMNotification (envNoSentWrite.item docX.id) worldToken.users docX.data).1
          = .ok "receipt"
      ∧ sessionsFor docX.id (checkScheduledNotifications envNoSentWrite worldToken).2.user_sessions
          = []
      ∧ getDoc (checkScheduledNotifications envNoSentWrite worldToken).2.scheduled_notifications
          docX.id = some { noteX with status := Status.failed, sentAt := none } := by
  refine ⟨by decide, by decide, rfl, by decide, by decide⟩

/-- C2, amended: for every due record, if its push send succeeds, the write of
status sent and the insert of the session record both succeed, and the write of
status failed succeeds whenever a due record of the cycle attempts it, the cycle
adds exactly one `user_sessions` record that references it (its key, its
scheduledTime, status completed, its title and body) and the record has status
sent and `sentAt` set; if its delivery fails the cycle adds no `user_sessions`
record for it and leaves its `sentAt` as it was. -/
theorem delivery_audit (e : CycleEnv) (w : World) (hq : e.queryOk = true) (hwf : WF w)
    (d : Doc) (hd : d ∈ w.scheduled_notifications) (hdue : isDue e.now d = true) :
    (∀ receipt, (sendFCMNotification (e.item d.id) w.users d.data).1 = .ok receipt →
        (e.item d.id).updateSent = true → (e.item d.id).addSession = true →
        (∀ x ∈ w.scheduled_notifications, isDue e.now x = true →
          (e.item x.id).updateFailed = true) →
        sessionsFor d.id (checkScheduledNotifications e w).2.user_sessions
            = sessionsFor d.id w.user_sessions ++
              [{ userId := d.data.userId, notificationId := d.id
                 sessionTime := d.data.scheduledTime, status := "completed"
                 createdAt := (e.item d.id).sessionCreatedAt
                 notificationData := { title := d.data.title, body := d.data.body } }]
          ∧ ∃ n, getDoc (checkScheduledNotifications e w).2.scheduled_notifications d.id = some n
              ∧ n.status = Status.sent ∧ n.sentAt = some (e.item d.id).sentAt)
      ∧ (∀ err, (sendFCMNotification (e.item d.id) w.users d.data).1 = .error err →
          sessionsFor d.id (checkScheduledNotifications e w).2.user_sessions
              = sessionsFor d.id w.user_sessions
            ∧ ∃ n, getDoc (checkScheduledNotifications e w).2.scheduled_notifications d.id = some n
                ∧ n.sentAt = d.data.sentAt) := by
  rw [cycle_getDoc e w hq hwf d hd, cycle_sessionsFor e w hq hwf d hd]
  constructor
  · intro receipt hs hu ha hall
    have h := fieldChange_sent e w.users d receipt hs hu ha d.data
    simp only [finalDoc, hdue, if_true, servedAt_whole e w hall, h.1, h.2]
    exact ⟨rfl, _, rfl, rfl, rfl⟩
  · intro err hs
    have h := fieldChange_undelivered e w.users d err hs (servedAt e w d.id) d.data
    simp only [finalDoc, hdue, if_true, h.2, List.append_nil]
    exact ⟨trivial, _, rfl, h.1⟩

theorem delivery_audit_witness :
    sessionsFor docX.id (checkScheduledNotifications envOk worldTwo).2.user_sessions
        = sessionsFor docX.id worldTwo.user_sessions ++
          [{ userId := "u1", notificationId := "X", sessionTime := t1500, status := "completed"
             createdAt := t1501
             notificationData := { title := "Appt", body := "See you at 3pm" } }]
      ∧ ∃ n, getDoc (checkScheduledNotifications envOk worldTwo).2.scheduled_notifications docX.id
            = some n
          ∧ n.status = Status.sent ∧ n.sentAt = some t1501 :=
  (delivery_audit envOk worldTwo rfl (by decide) docX (by decide) (by decide)).1
    "receipt" rfl rfl rfl (fun _ _ _ => rfl)

/-- C5, on the code: Y and X are due; the push send of Y throws (its user does not
exist) and its write of status failed is refused, so its pipeline is rejected and
the handler returns while the pipeline of X has only sent its message: X is left
pending, without `sentAt` and without session record, where in the cycle over the
store without Y it is sent, with `sentAt` and its session record. -/
theorem rejected_item_cuts_others_short :
    dueDocs envYStuck worldTwo = [docY, docX]
      ∧ (∃ err, (sendFCMNotification (envYStuck.item docY.id) worldTwo.users docY.data).1
          = .error err)
      ∧ getDoc (checkScheduledNotifications envYStuck worldTwo).2.scheduled_notifications docX.id
          = some noteX
      ∧ noteX.status = Status.pending
      ∧ sessionsFor docX.id (checkScheduledNotifications envYStuck worldTwo).2.user_sessions = []
      ∧ (checkScheduledNotifications envYStuck worldTwo).2.pushed = [buildMessage "tok" noteX]
      ∧ getDoc (checkScheduledNotifications envYStuck
            (withoutDoc docY.id worldTwo)).2.scheduled_notifications docX.id
          = some { noteX with status := Status.sent, sentAt := some t1501 }
      ∧ sessionsFor docX.id (checkScheduledNotifications envYStuck
            (withoutDoc docY.id worldTwo)).2.user_sessions = [sessionOf t1501 docX] := by
  refine ⟨by decide, ⟨"Usuario no encontrado", rfl⟩, by decide, by decide, by decide, by decide,
    by decide, by decide⟩

/-- C7: a cycle leaves every record that is not due (status sent or failed, or
scheduledTime after now) unchanged and adds no session record for it; the messages
it submits to the gateway are messages of due documents only, each at most once;
on a store whose records are all sent or failed a cycle changes nothing (records,
sessions, gateway log); and a failed record is unchanged by the next cycle too. -/
theorem cycle_skips_not_due (e : CycleEnv) (w : World) (hwf : WF w) :
    (∀ d ∈ w.scheduled_notifications, isDue e.now d = false →
        getDoc (checkScheduledNotifications e w).2.scheduled_notifications d.id = some d.data
          ∧ sessionsFor d.id (checkScheduledNotifications e w).2.user_sessions
              = sessionsFor d.id w.user_sessions)
      ∧ (∃ added, (checkScheduledNotifications e w).2.pushed = w.pushed ++ added
          ∧ added.Sublist ((w.scheduled_notifications.filter (isDue e.now)).flatMap
              (fun d => (sendFCMNotification (e.item d.id) w.users d.data).2)))
      ∧ ((∀ d ∈ w.scheduled_notifications, d.data.status ≠ Status.pending) →
          checkScheduledNotifications e w = (.ok JsNull.null, w))
      ∧ (∀ d ∈ w.scheduled_notifications, d.data.status = Status.failed → ∀ e2 : CycleEnv,
          getDoc (checkScheduledNotifications e2
            (checkScheduledNotifications e w).2).2.scheduled_notifications d.id = some d.data) := by
  refine ⟨fun d hd hdue => cycle_not_due e w hwf d hd hdue, cycle_pushed e w,
    cycle_no_pending e w, ?_⟩
  intro d hd hfailed e2
  have hnot : ∀ now, isDue now d = false := fun now => by simp [isDue, hfailed]
  exact (cycle_not_due e2 _ (cycle_keeps_keys e w hwf) d
    (cycle_mem_not_due e w hwf d hd (hnot _)) (hnot _)).1

theorem cycle_skips_not_due_witness :
    checkScheduledNotifications envOk worldDone = (.ok JsNull.null, worldDone) :=
  (cycle_skips_not_due envOk worldDone (by decide)).2.2.1 (by decide)

/-! ## scheduleNotification -/

theorem schedule_unauthenticated (env : CallEnv) (r : Request) (w : World) :
    scheduleNotification env none r w
      = (.error { code := "unauthenticated", message := "Usuario no autenticado" }, w) := rfl

theorem schedule_duplicate (env : CallEnv) (a : Auth) (r : Request) (w : World)
    (h : existingNotification w.scheduled_notifications a.uid r.scheduledTime ≠ []) :
    scheduleNotification env (some a) r w
      = (.error { code := "internal"
                  message := "Ya existe una notificación programada para esta fecha y hora" }, w) := by
  have he : (existingNotification w.scheduled_notifications a.uid r.scheduledTime).isEmpty = false := by
    cases hl : existingNotification w.scheduled_notifications a.uid r.scheduledTime with
    | nil => exact absurd hl h
    | cons x t => rfl
  simp [scheduleNotification, scheduleBody, he, errorMessage]

theorem schedule_key_taken (env : CallEnv) (a : Auth) (r : Request) (w : World)
    (h : env.newId ∈ ids w.scheduled_notifications) :
    (scheduleNotification env (some a) r w).2 = w := by
  by_cases he : (existingNotification w.scheduled_notifications a.uid r.scheduledTime).isEmpty = false
  · simp [scheduleNotification, scheduleBody, he]
  · simp [scheduleNotification, scheduleBody, addDoc, he, h]

theorem schedule_success (env : CallEnv) (a : Auth) (r : Request) (w : World)
    (hno : existingNotification w.scheduled_notifications a.uid r.scheduledTime = [])
    (hfresh : env.newId ∉ ids w.scheduled_notifications) :
    scheduleNotification env (some a) r w
      = (.ok { success := true, notificationId := env.newId
               message := "Notificación programada exitosamente" },
         { w with scheduled_notifications :=
            w.scheduled_notifications ++ [{ id := env.newId, data := newNotification env.now a.uid r }] }) := by
  simp [scheduleNotification, scheduleBody, addDoc, hno, hfresh]

/-- The world a call leaves: the one it found, or that one with the new record. -/
theorem schedule_world (env : CallEnv) (auth : Option Auth) (r : Request) (w : World) :
    (scheduleNotification env auth r w).2 = w
      ∨ ∃ a, auth = some a
          ∧ existingNotification w.scheduled_notifications a.uid r.scheduledTime = []
          ∧ env.newId ∉ ids w.scheduled_notifications
          ∧ (scheduleNotification env auth r w).2 = { w with scheduled_notifications :=
              w.scheduled_notifications ++ [{ id := env.newId, data := newNotification env.now a.uid r }] } := by
  cases auth with
  | none => exact Or.inl rfl
  | some a =>
    by_cases hno : existingNotification w.scheduled_notifications a.uid r.scheduledTime = []
    · by_cases hfresh : env.newId ∈ ids w.scheduled_notifications
      · exact Or.inl (schedule_key_taken env a r w hfresh)
      · exact Or.inr ⟨a, rfl, hno, hfresh, by rw [schedule_success env a r w hno hfresh]⟩
    · exact Or.inl (by rw [schedule_duplicate env a r w hno])

theorem getDoc_append_new (l : List Doc) (key : String) (n : Notification) (h : key ∉ ids l) :
    getDoc (l ++ [{ id := key, data := n }]) key = some n := by
  induction l with
  | nil => simp [getDoc]
  | cons a t ih =>
    simp only [ids, List.map_cons, List.mem_cons, not_or] at h
    have ha : ¬ a.id = key := fun hc => h.1 hc.symm
    have := ih (by simpa [ids] using h.2)
    simp only [getDoc, List.cons_append, List.find?_cons, ha, decide_False] at this ⊢
    exact this

/-- C3, on the code: X is pending for user u1 at 15:00, u1 schedules 15:00 again,
and the error the caller gets has code internal, not already-exists; the store is
unchanged. -/
theorem duplicate_surfaces_internal :
    existingNotification worldToken.scheduled_notifications authU1.uid reqAppt.scheduledTime = [docX]
      ∧ scheduleNotification callZ (some authU1) reqAppt worldToken
          = (.error { code := "internal"
                      message := "Ya existe una notificación programada para esta fecha y hora" },
             worldToken) :=
  ⟨by decide, rfl⟩

/-- C4: a call without identity is rejected with code unauthenticated and leaves the
store as it was; a call that finds a record of the same userId and scheduledTime in
status pending or sent fails and leaves the store as it was; and so does every
call that fails. -/
theorem schedule_failure_no_effect (env : CallEnv) (r : Request) (w : World) :
    scheduleNotification env none r w
        = (.error { code := "unauthenticated", message := "Usuario no autenticado" }, w)
      ∧ (∀ a : Auth, existingNotification w.scheduled_notifications a.uid r.scheduledTime ≠ [] →
          ∃ err, scheduleNotification env (some a) r w = (.error err, w))
      ∧ (∀ (auth : Option Auth) (err : HttpsError),
          (scheduleNotification env auth r w).1 = .error err →
            (scheduleNotification env auth r w).2 = w) := by
  refine ⟨rfl, fun a h => ⟨_, schedule_duplicate env a r w h⟩, ?_⟩
  intro auth err herr
  rcases schedule_world env auth r w with h | ⟨a, ha, hno, hfresh, _⟩
  · exact h
  · subst ha
    rw [schedule_success env a r w hno hfresh] at herr
    cases herr

theorem schedule_failure_no_effect_witness :
    ∃ err, scheduleNotification callZ (some authU1) reqAppt worldToken = (.error err, worldToken) :=
  (schedule_failure_no_effect callZ reqAppt worldToken).2.1 authU1 (by decide)

/-- C9: for an authenticated caller U and a request for which no record of U with
that scheduledTime T is pending or sent, `scheduleNotification` appends exactly one
record, under the key the store generates, with userId U, the title and the body
given, scheduledTime T, status pending, type as given or appointment, createdAt
now and expiresAt T + 1,800,000 ms; it leaves the other records as they were and
returns success true with that key; for T = 2024-01-01T15:00:00Z the new record
expires at 2024-01-01T15:30:00Z. -/
theorem schedule_inserts (env : CallEnv) (a : Auth) (r : Request) (w : World)
    (hno : existingNotification w.scheduled_notifications a.uid r.scheduledTime = [])
    (hfresh : env.newId ∉ ids w.scheduled_notifications) :
    scheduleNotification env (some a) r w
        = (.ok { success := true, notificationId := env.newId
                 message := "Notificación programada exitosamente" },
           { w with scheduled_notifications := w.scheduled_notifications ++
              [{ id := env.newId
                 data := { userId := a.uid, title := r.title, body := r.body
                           scheduledTime := r.scheduledTime, status := Status.pending
                           type := r.type.getD "appointment", createdAt := env.now
                           expiresAt := r.scheduledTime + 1800000, sentAt := none, id := none } }] })
      ∧ (r.scheduledTime = utcMillis 2024 1 1 15 0 0 →
          ∃ n, getDoc (scheduleNotification env (some a) r w).2.scheduled_notifications env.newId
              = some n
            ∧ n.status = Status.pending ∧ n.expiresAt = utcMillis 2024 1 1 15 30 0) := by
  constructor
  · rw [schedule_success env a r w hno hfresh]
    rfl
  · intro ht
    rw [schedule_success env a r w hno hfresh]
    refine ⟨_, getDoc_append_new _ _ _ hfresh, rfl, ?_⟩
    simp only [newNotification, ht]
    decide

theorem schedule_inserts_witness :
    scheduleNotification callX (some authU1) reqAppt worldUsers
        = (.ok { success := true, notificationId := "X"
                 message := "Notificación programada exitosamente" },
           { worldUsers with scheduled_notifications := worldUsers.scheduled_notifications ++
              [{ id := "X"
                 data := { userId := "u1", title := "Appt", body := "See you at 3pm"
                           scheduledTime := t1500, status := Status.pending
                           type := (none : Option String).getD "appointment", createdAt := 0
                           expiresAt := t1500 + 1800000, sentAt := none, id := none } }] })
      ∧ ∃ n, getDoc (scheduleNotification callX (some authU1) reqAppt worldUsers).2.scheduled_notifications
            "X" = some n
          ∧ n.status = Status.pending ∧ n.expiresAt = utcMillis 2024 1 1 15 30 0 :=
  have h := schedule_inserts callX authU1 reqAppt worldUsers (by decide) (by decide)
  ⟨h.1, h.2 (by decide)⟩

/-- C10, on the code: X is the record `scheduleNotification` wrote for u1, who has
the token tok; the cycle submits one message for it, to tok, with the title, the
body and the type of the claim, and with no `notificationId` at all, where the
claim has the key X. -/
theorem push_message_lacks_key :
    (scheduleNotification callX (some authU1) reqAppt worldUsers).2 = worldToken
      ∧ (checkScheduledNotifications envOk worldToken).2.pushed
          = [{ token := "tok"
               notification := { title := "Appt", body := "See you at 3pm" }
               data := { type := "scheduled_notification", notificationId := none
                         click_action := "FLUTTER_NOTIFICATION_CLICK" }
               androidSound := "default", androidPriority := "high"
               apnsSound := "default", apnsBadge := 1 }]
      ∧ (checkScheduledNotifications envOk worldToken).2.scheduled_notifications
          = [{ id := "X", data := { noteX with status := Status.sent, sentAt := some t1501 } }] := by
  decide

/-! ## The invariant -/

theorem existing_finalDoc (e : CycleEnv) (users : List (String × UserData)) (served : String → Nat)
    (l : List Doc) (userId : String) (scheduledTime : Int) :
    (existingNotification (l.map (finalDoc e users served)) userId scheduledTime).length
      ≤ (existingNotification l userId scheduledTime).length := by
  unfold existingNotification
  rw [← List.countP_eq_length_filter, ← List.countP_eq_length_filter, List.countP_map]
  apply List.countP_mono_left
  intro d _ hp
  by_cases hdue : isDue e.now d = true
  · have hk := fieldChange_keeps e users d (served d.id) d.data
    have hpend : d.data.status = Status.pending := by
      simp only [isDue, Bool.and_eq_true, decide_eq_true_eq] at hdue
      exact hdue.1
    simp only [Function.comp_apply, finalDoc, hdue, if_true, hk.1, hk.2, Bool.and_eq_true,
      decide_eq_true_eq] at hp
    simp [hp.1.1, hp.1.2, hpend]
  · simpa [finalDoc, hdue] using hp

theorem cycle_unique (e : CycleEnv) (w : World) (hwf : WF w)
    (h : UniqueActive w.scheduled_notifications) :
    UniqueActive (checkScheduledNotifications e w).2.scheduled_notifications := by
  cases hq : e.queryOk with
  | false => rw [cycle_query_failed e w hq]; exact h
  | true =>
    intro u t
    rw [cycle_docs e w hq hwf]
    exact le_trans (existing_finalDoc e w.users _ _ u t) (h u t)

theorem schedule_unique (env : CallEnv) (auth : Option Auth) (r : Request) (w : World)
    (h : UniqueActive w.scheduled_notifications) :
    UniqueActive (scheduleNotification env auth r w).2.scheduled_notifications := by
  rcases schedule_world env auth r w with hw | ⟨a, _, hno, _, hw⟩
  · rw [hw]; exact h
  · rw [hw]
    intro u t
    have happ : existingNotification
          (w.scheduled_notifications ++ [{ id := env.newId, data := newNotification env.now a.uid r }]) u t
        = existingNotification w.scheduled_notifications u t
          ++ existingNotification [{ id := env.newId, data := newNotification env.now a.uid r }] u t := by
      simp [existingNotification]
    rw [happ, List.length_append]
    by_cases hsame : a.uid = u ∧ r.scheduledTime = t
    · rw [← hsame.1, ← hsame.2, hno]
      simpa [existingNotification] using List.length_filter_le _ _
    · have hnil : existingNotification
          [{ id := env.newId, data := newNotification env.now a.uid r }] u t = [] := by
        simp only [existingNotification, newNotification, List.filter_eq_nil_iff,
          List.mem_singleton, forall_eq]
        simpa using fun h1 h2 => absurd ⟨h1, h2⟩ hsame
      rw [hnil]
      simpa using h u t

theorem schedule_keeps_keys (env : CallEnv) (auth : Option Auth) (r : Request) (w : World)
    (hwf : WF w) : WF (scheduleNotification env auth r w).2 := by
  rcases schedule_world env auth r w with hw | ⟨a, _, _, hfresh, hw⟩
  · rw [hw]; exact hwf
  · rw [hw]
    unfold WF at hwf ⊢
    simp only [ids, List.map_append, List.map_cons, List.map_nil] at hfresh ⊢
    rw [List.nodup_append]
    refine ⟨hwf, List.nodup_singleton _, ?_⟩
    intro x hx hx2
    rw [List.mem_singleton] at hx2
    exact hfresh (hx2 ▸ hx)

/-- C8: with operations run one at a time, `at most one record per userId and
scheduledTime has status pending or sent` holds in the empty store and is kept by
every call of `scheduleNotification` and by every dispatch cycle; so is the
distinctness of the keys of the collection, on which the cycle relies. -/
theorem unique_active_invariant :
    (WF worldEmpty ∧ UniqueActive worldEmpty.scheduled_notifications)
      ∧ (∀ (env : CallEnv) (auth : Option Auth) (r : Request) (w : World),
          (WF w → WF (scheduleNotification env auth r w).2)
            ∧ (UniqueActive w.scheduled_notifications →
                UniqueActive (scheduleNotification env auth r w).2.scheduled_notifications))
      ∧ (∀ (e : CycleEnv) (w : World), WF w →
          WF (checkScheduledNotifications e w).2
            ∧ (UniqueActive w.scheduled_notifications →
                UniqueActive (checkScheduledNotifications e w).2.scheduled_notifications)) := by
  refine ⟨⟨by decide, fun u t => by simp [worldEmpty, existingNotification]⟩, ?_, ?_⟩
  · intro env auth r w
    exact ⟨schedule_keeps_keys env auth r w, schedule_unique env auth r w⟩
  · intro e w hwf
    exact ⟨cycle_keeps_keys e w hwf, cycle_unique e w hwf⟩

theorem unique_active_invariant_witness :
    UniqueActive (checkScheduledNotifications envOk
      (scheduleNotification callX (some authU1) reqAppt worldUsers).2).2.scheduled_notifications :=
  (unique_active_invariant.2.2 envOk _
      ((unique_active_invariant.2.1 callX (some authU1) reqAppt worldUsers).1 (by decide))).2
    ((unique_active_invariant.2.1 callX (some authU1) reqAppt worldUsers).2
      (fun u t => by simp [worldUsers, existingNotification]))

end MindU
